import Mathlib

/-!
Verification of `src/lib/driver/llvm.cc` (triton driver backend).

Strings of the C++ code are modelled as `List Char`.  The functions
`find_and_replace`, `vptx`, `init_llvm`, the post-processing tail of
`llir_to_ptx` (lines 97-101 and 139-143) and the control flow of
`ptx_to_cumodule` are embedded below.  The external collaborators
(the LLVM emission pipeline, `tools::exec`, `system`, `mkstemp`,
`dispatch::cuModuleLoad`, `dispatch::cuModuleLoadDataEx`) are not part
of the repository source; their observable behaviour is supplied through
explicit parameters / environment records, as the spec describes them.
-/

namespace Triton

/-- `headMatches pat s` holds when `pat` occurs at the very start of `s`
(the matching step of `std::string::find`). -/
def headMatches : List Char → List Char → Bool
  | [], _ => true
  | _ :: _, [] => false
  | p :: ps, c :: cs => p == c && headMatches ps cs

/-- Index of the first occurrence of `pat` in `s`: models
`std::string::find(pat)` (`none` plays the role of `npos`). -/
def strFind (pat : List Char) : List Char → Option Nat
  | [] => if headMatches pat [] then some 0 else none
  | c :: cs =>
    if headMatches pat (c :: cs) then some 0
    else (strFind pat cs).map (· + 1)

/-- Models `std::string::find(pat, i)`: first occurrence at index `≥ i`. -/
def strFindFrom (pat s : List Char) (i : Nat) : Option Nat :=
  (strFind pat (s.drop i)).map (· + i)

/-- Models `find_and_replace` (src/lib/driver/llvm.cc:67-74): locate the first
occurrence of `b`, locate the first occurrence of `e` at or after it, and
replace the region from the start of `b` through the end of `e` by `target`.
When `e` is not found, `end_replace + 1 - start_replace` wraps around in the
C++ `size_t` arithmetic and `std::string::replace` rewrites everything up to
the end of the string; the `none` branch below reproduces that.  Returns the
new string together with the `bool` result. -/
def find_and_replace (str b e target : List Char) : List Char × Bool :=
  match strFind b str with
  | none => (str, false)
  | some start =>
    match strFindFrom e str start with
    | none => (str.take start ++ target, true)
    | some endR => (str.take start ++ target ++ str.drop (endR + 1), true)

/-- Models `vptx` (src/lib/driver/llvm.cc:76-85): maps a toolkit version to
the maximal PTX ISA version, throwing for versions below 10000. -/
def vptx (version : Int) : Except String Int :=
  if version ≥ 11030 then Except.ok 73
  else if version ≥ 11020 then Except.ok 72
  else if version ≥ 11010 then Except.ok 71
  else if version ≥ 11000 then Except.ok 70
  else if version ≥ 10020 then Except.ok 65
  else if version ≥ 10010 then Except.ok 64
  else if version ≥ 10000 then Except.ok 63
  else Except.error "Triton requires CUDA 10+"

/-- The begin-inline-asm comment marker stripped at src/lib/driver/llvm.cc:142. -/
def beginMarker : List Char := "\t// begin inline asm".toList

/-- The end-inline-asm comment marker stripped at src/lib/driver/llvm.cc:143. -/
def endMarker : List Char := "\t// end inline asm".toList

/-- Fuelled body of the `while(find_and_replace(result, marker, "\n", ""));`
loops at src/lib/driver/llvm.cc:142-143.  Each successful rewrite strictly
shortens the string, so `length + 1` fuel (see `strip_loop`) always suffices
and the fuel never runs out before the `find` fails. -/
def strip_go (marker : List Char) : Nat → List Char → List Char
  | 0, s => s
  | n + 1, s =>
    match find_and_replace s marker ['\n'] [] with
    | (t, true) => strip_go marker n t
    | (_, false) => s

/-- One full `while(find_and_replace(result, marker, "\n", ""));` loop. -/
def strip_loop (marker s : List Char) : List Char :=
  strip_go marker (s.length + 1) s

/-- The complete marker-stripping pass of `llir_to_ptx`
(src/lib/driver/llvm.cc:142-143): begin-marker loop, then end-marker loop. -/
def strip_inline_asm (s : List Char) : List Char :=
  strip_loop endMarker (strip_loop beginMarker s)

/-- The four NVPTX registration calls made by `init_llvm`
(src/lib/driver/llvm.cc:56-59), in source order. -/
inductive RegEvent where
  | targetInfo
  | target
  | targetMC
  | asmPrinter
deriving DecidableEq, Repr

/-- Process-wide state seen by `init_llvm`: the `static bool init` guard and
the list of registration calls performed so far. -/
structure InitState where
  init : Bool
  regs : List RegEvent
deriving DecidableEq, Repr

/-- The registrations performed by one un-guarded body of `init_llvm`. -/
def registrations : List RegEvent :=
  [RegEvent.targetInfo, RegEvent.target, RegEvent.targetMC, RegEvent.asmPrinter]

/-- Models `init_llvm` (src/lib/driver/llvm.cc:53-62): if the guard is set,
do nothing; otherwise perform the four registrations and set the guard. -/
def init_llvm (s : InitState) : InitState :=
  if s.init then s else { init := true, regs := s.regs ++ registrations }

/-- `n` successive invocations of `init_llvm`. -/
def initIter : Nat → InitState → InitState
  | 0, s => s
  | n + 1, s => initIter n (init_llvm s)

/-- The state of a process before any `init_llvm` call: guard unset, no
registrations performed. -/
def freshProcess : InitState := { init := false, regs := [] }

/-- `(toString n).toList`: models `std::to_string` on `int` values. -/
def intStr (n : Int) : List Char := (toString n).toList

/-- Generator-internal ceiling on the compute capability (llvm.cc:89). -/
def max_nvvm_cc : Int := 75

/-- Generator-internal ceiling on the PTX ISA version (llvm.cc:90). -/
def max_nvvm_ptx : Int := 64

/-- `sm` (llvm.cc:97): capability string built from the *requested*
capability, used by the `.target` rewrite. -/
def sm (cc : Int) : List Char := "sm_".toList ++ intStr cc

/-- `proc` (llvm.cc:105): processor string used for internal codegen,
clamped to `max_nvvm_cc`. -/
def proc (cc : Int) : List Char := "sm_".toList ++ intStr (min cc max_nvvm_cc)

/-- `features` (llvm.cc:107): feature string, clamped to `max_nvvm_ptx`. -/
def features (ptx : Int) : List Char := "+ptx".toList ++ intStr (min ptx max_nvvm_ptx)

/-- Replacement text of the `.version` rewrite (llvm.cc:140), built from the
unclamped resolved ISA version: `".version " + ptx/10 + "." + ptx%10 + "\n"`. -/
def versionDirective (ptx : Int) : List Char :=
  ".version ".toList ++ intStr (ptx / 10) ++ ['.'] ++ intStr (ptx % 10) ++ ['\n']

/-- Replacement text of the `.target` rewrite (llvm.cc:141):
`".target " + sm + "\n"` with the requested capability. -/
def targetDirective (cc : Int) : List Char :=
  ".target ".toList ++ sm cc ++ ['\n']

/-- The `.version` rewrite of `llir_to_ptx` (llvm.cc:140). -/
def patchVersion (s : List Char) (ptx : Int) : List Char :=
  (find_and_replace s (".version".toList) ['\n'] (versionDirective ptx)).1

/-- The `.target` rewrite of `llir_to_ptx` (llvm.cc:141). -/
def patchTarget (s : List Char) (cc : Int) : List Char :=
  (find_and_replace s (".target".toList) ['\n'] (targetDirective cc)).1

/-- Observable string transformation of `llir_to_ptx`
(src/lib/driver/llvm.cc:87-145).  `raw` models the contents of `buffer`
after `pass.run(*module)`: the emission itself is done by the external LLVM
backend, which is not part of this repository.  The ISA version is resolved
by `vptx` (line 99; the C++ exception is modelled by `Except`), and the
result is the raw text with the `.version` and `.target` directive rewrites
and the two marker-stripping loops applied in source order (lines 139-143). -/
def llir_to_ptx (raw : List Char) (cc version : Int) : Except String (List Char) :=
  (vptx version).map fun ptx =>
    strip_inline_asm (patchTarget (patchVersion raw ptx) cc)

/-- `pat` occurs in `s` as a contiguous substring. -/
def occursIn (pat s : List Char) : Prop := ∃ u v, s = u ++ pat ++ v

/-- Counterexample input for idempotence of `strip_inline_asm`: deleting the
end marker through its newline splices `"\t// begin"` onto `" inline asm"`,
creating a begin-marker occurrence that only a second pass removes. -/
def ex7 : List Char :=
  ("\t// begin" ++ "\t// end inline asm\n" ++ " inline asm\n").toList

/-- Temporary-directory entries handled by Strategy A of `ptx_to_cumodule`:
the assembly source file `/tmp/triton_k_XXXXXX`, the diagnostic log file
`/tmp/triton_l_XXXXXX`, and the compiled object written at the source path
with suffix `".o"` (llvm.cc:158-159, 169). -/
inductive TmpFile where
  | src
  | log
  | obj
deriving DecidableEq, Repr

/-- Driver-load failures distinguished by `ptx_to_cumodule`: the
`exception::cuda::invalid_ptx` handled by its catch block (llvm.cc:191),
and every other driver error, which propagates uncaught. -/
inductive CuError where
  | invalidPtx
  | otherError
deriving DecidableEq, Repr

/-- Observable actions of `ptx_to_cumodule`, in program order:
`execProbe` is `tools::exec("ptxas --version")` (line 153), `createTmp` is
`mkstemp` (lines 160-161), `writeFile` is `ofs << ptx` (line 165),
`execAsm cc` is the `system` call invoking the assembler with
`--gpu-name=sm_cc` (line 170), `cuModuleLoad` is the file-based load of
`fsrc + ".o"` (line 172), `cuModuleLoadDataEx` the data-based load
(line 188), `unlink` lines 173-174, `printPtx` is `std::cout << ptx`
(line 192) and `printDiag` the `std::cerr` diagnostic line (line 193). -/
inductive Event where
  | execProbe
  | createTmp (f : TmpFile)
  | writeFile (f : TmpFile) (text : List Char)
  | execAsm (cc : Int)
  | cuModuleLoad
  | cuModuleLoadDataEx
  | unlink (f : TmpFile)
  | printPtx (text : List Char)
  | printDiag
deriving DecidableEq, Repr

instance {ε α : Type} [DecidableEq ε] [DecidableEq α] : DecidableEq (Except ε α) :=
  fun x y =>
    match x, y with
    | Except.ok a, Except.ok b =>
      if h : a = b then isTrue (by rw [h])
      else isFalse (by intro hc; cases hc; exact h rfl)
    | Except.error a, Except.error b =>
      if h : a = b then isTrue (by rw [h])
      else isFalse (by intro hc; cases hc; exact h rfl)
    | Except.ok _, Except.error _ => isFalse (by intro hc; cases hc)
    | Except.error _, Except.ok _ => isFalse (by intro hc; cases hc)

/-- Behaviour of the external collaborators of `ptx_to_cumodule`: whether
the `ptxas --version` probe exits 0, the exit status of the assembler
command (stored by the code in `err` at line 170 but never inspected),
whether the assembler produced the object file, and the outcomes of the two
driver load entry points. -/
structure DriverEnv where
  ptxasAvailable : Bool
  asmExit : Int
  asmWritesObj : Bool
  loadFile : Except CuError Nat
  loadData : Except CuError Nat
deriving DecidableEq, Repr

/-- Result of one `ptx_to_cumodule` call: the returned handle or propagated
error, the event trace, and the temporary-directory entries still present
when the call returns. -/
structure LoadOutcome where
  ret : Except CuError Nat
  events : List Event
  tmpFiles : List TmpFile
deriving DecidableEq, Repr

/-- Events every Strategy A execution performs before anything else,
ending with the `cuModuleLoad` attempt: the code reaches line 172
unconditionally, whatever `system` returned. -/
def strategyAPrefix (ptx : List Char) (cc : Int) : List Event :=
  [Event.execProbe, Event.createTmp TmpFile.src, Event.createTmp TmpFile.log,
   Event.writeFile TmpFile.src ptx, Event.execAsm cc, Event.cuModuleLoad]

/-- Models `ptx_to_cumodule` (src/lib/driver/llvm.cc:147-196).
Strategy A (probe succeeded): create the two temp files, write the
assembly, run the assembler (exit status recorded, never checked), then
call `cuModuleLoad` on `fsrc + ".o"`.  On success the two temp files are
unlinked (lines 173-174) and the handle returned.  If `cuModuleLoad`
throws, the exception skips both `unlink` calls; `invalid_ptx` is caught
(line 191), the assembly text and a diagnostic line are printed and the
exception rethrown, while other errors propagate directly.  Strategy B
(probe failed): `cuModuleLoadDataEx` on the text, same catch block, no
temporary files.  `tmpFiles` lists what remains in the temporary directory
at return (the object file exists when the assembler wrote it; nothing ever
removes it). -/
def ptx_to_cumodule (ptx : List Char) (cc : Int) (env : DriverEnv) : LoadOutcome :=
  if env.ptxasAvailable then
    match env.loadFile with
    | Except.ok h =>
      { ret := Except.ok h,
        events := strategyAPrefix ptx cc ++
          [Event.unlink TmpFile.src, Event.unlink TmpFile.log],
        tmpFiles := if env.asmWritesObj then [TmpFile.obj] else [] }
    | Except.error CuError.invalidPtx =>
      { ret := Except.error CuError.invalidPtx,
        events := strategyAPrefix ptx cc ++ [Event.printPtx ptx, Event.printDiag],
        tmpFiles := if env.asmWritesObj then [TmpFile.src, TmpFile.log, TmpFile.obj]
          else [TmpFile.src, TmpFile.log] }
    | Except.error CuError.otherError =>
      { ret := Except.error CuError.otherError,
        events := strategyAPrefix ptx cc,
        tmpFiles := if env.asmWritesObj then [TmpFile.src, TmpFile.log, TmpFile.obj]
          else [TmpFile.src, TmpFile.log] }
  else
    match env.loadData with
    | Except.ok h =>
      { ret := Except.ok h,
        events := [Event.execProbe, Event.cuModuleLoadDataEx],
        tmpFiles := [] }
    | Except.error CuError.invalidPtx =>
      { ret := Except.error CuError.invalidPtx,
        events := [Event.execProbe, Event.cuModuleLoadDataEx,
          Event.printPtx ptx, Event.printDiag],
        tmpFiles := [] }
    | Except.error CuError.otherError =>
      { ret := Except.error CuError.otherError,
        events := [Event.execProbe, Event.cuModuleLoadDataEx],
        tmpFiles := [] }

/-- Environment of C4's failing input: ptxas on PATH, the assembler exits
nonzero without producing the object file, the driver load then fails. -/
def leakyEnv : DriverEnv :=
  { ptxasAvailable := true, asmExit := 1, asmWritesObj := false,
    loadFile := Except.error CuError.invalidPtx, loadData := Except.ok 0 }

/-- Environment with ptxas on PATH whose assembler invocation exits nonzero
(and writes no object), while the driver load itself succeeds. -/
def asmFailEnv : DriverEnv :=
  { ptxasAvailable := true, asmExit := 1, asmWritesObj := false,
    loadFile := Except.ok 7, loadData := Except.ok 7 }

/-- Environment without ptxas where the in-driver JIT rejects the text. -/
def dataInvalidEnv : DriverEnv :=
  { ptxasAvailable := false, asmExit := 0, asmWritesObj := false,
    loadFile := Except.ok 0, loadData := Except.error CuError.invalidPtx }

/-- Environment where the assembler runs, writes the object file, and the
subsequent driver load succeeds. -/
def persistEnv : DriverEnv :=
  { ptxasAvailable := true, asmExit := 0, asmWritesObj := true,
    loadFile := Except.ok 5, loadData := Except.ok 5 }

lemma initIter_of_init (n : Nat) (r : List RegEvent) :
    initIter n { init := true, regs := r } = { init := true, regs := r } := by
  induction n with
  | zero => rfl
  | succ k ih => simpa [initIter, init_llvm] using ih

/-- C8: the Target Initializer registers the backend exactly once per
process: after any positive number of invocations starting from a fresh
process, the state is the one produced by the first invocation, exactly the
four registration calls have run, and invoking `init_llvm` twice on any
state is the same as invoking it once. -/
theorem init_llvm_once (n : Nat) :
    initIter (n + 1) freshProcess = { init := true, regs := registrations } ∧
    initIter (n + 1) freshProcess = init_llvm freshProcess ∧
    ∀ s : InitState, init_llvm (init_llvm s) = init_llvm s := by
  refine ⟨?_, ?_, ?_⟩
  · show initIter n (init_llvm freshProcess) = _
    simpa [init_llvm, freshProcess] using initIter_of_init n registrations
  · show initIter n (init_llvm freshProcess) = _
    simp only [init_llvm, freshProcess]
    simpa using initIter_of_init n registrations
  · intro s
    by_cases h : s.init <;> simp [init_llvm, h]

/-- C1: the Version Resolver's compatibility table, reproduced exactly:
the seven thresholds map to the seven ISA versions, every version at or
above the top threshold yields 73, and every version below 10000 fails. -/
theorem vptx_table :
    vptx 10000 = Except.ok 63 ∧ vptx 10010 = Except.ok 64 ∧
    vptx 10020 = Except.ok 65 ∧ vptx 11000 = Except.ok 70 ∧
    vptx 11010 = Except.ok 71 ∧ vptx 11020 = Except.ok 72 ∧
    vptx 11030 = Except.ok 73 ∧
    (∀ v : Int, 11030 ≤ v → vptx v = Except.ok 73) ∧
    ∀ v : Int, v < 10000 → vptx v = Except.error "Triton requires CUDA 10+" := by
  refine ⟨rfl, rfl, rfl, rfl, rfl, rfl, rfl, ?_, ?_⟩
  · intro v hv
    unfold vptx
    split_ifs <;> first | rfl | (exfalso; omega)
  · intro v hv
    unfold vptx
    split_ifs <;> first | rfl | (exfalso; omega)

/-- Witness for C1 at concrete inputs: toolkit 9050 is rejected and
toolkit 99999 resolves to 73. -/
theorem vptx_table_witness :
    vptx 9050 = Except.error "Triton requires CUDA 10+" ∧
    vptx 99999 = Except.ok 73 :=
  ⟨vptx_table.2.2.2.2.2.2.2.2 9050 (by norm_num),
   vptx_table.2.2.2.2.2.2.2.1 99999 (by norm_num)⟩

lemma vptx_ok_of_ge (v : Int) (h : 10000 ≤ v) :
    vptx v = Except.ok
      (if v ≥ 11030 then 73 else if v ≥ 11020 then 72 else
       if v ≥ 11010 then 71 else if v ≥ 11000 then 70 else
       if v ≥ 10020 then 65 else if v ≥ 10010 then 64 else 63) := by
  unfold vptx
  split_ifs <;> first | rfl | (exfalso; omega)

/-- C9: the Version Resolver is monotone on its valid domain: larger toolkit
versions resolve to PTX ISA versions at least as large. -/
theorem vptx_monotone (v1 v2 : Int) (h1 : 10000 ≤ v1) (h12 : v1 ≤ v2) :
    ∃ r1 r2 : Int, vptx v1 = Except.ok r1 ∧ vptx v2 = Except.ok r2 ∧ r1 ≤ r2 := by
  rw [vptx_ok_of_ge v1 h1, vptx_ok_of_ge v2 (le_trans h1 h12)]
  refine ⟨_, _, rfl, rfl, ?_⟩
  split_ifs <;> omega

/-- Witness for C9 at the concrete pair (10010, 11020). -/
theorem vptx_monotone_witness :
    ∃ r1 r2 : Int,
      vptx 10010 = Except.ok r1 ∧ vptx 11020 = Except.ok r2 ∧ r1 ≤ r2 :=
  vptx_monotone 10010 11020 (by norm_num) (by norm_num)

lemma headMatches_length : ∀ p s : List Char, headMatches p s = true → p.length ≤ s.length
  | [], s, _ => by simp
  | p :: ps, [], h => by simp [headMatches] at h
  | p :: ps, c :: cs, h => by
    simp only [headMatches, Bool.and_eq_true] at h
    simpa using headMatches_length ps cs h.2

lemma strFind_bound (pat : List Char) :
    ∀ (s : List Char) (i : Nat), strFind pat s = some i →
      i + pat.length ≤ s.length ∧ headMatches pat (s.drop i) = true := by
  intro s
  induction s with
  | nil =>
    intro i h
    unfold strFind at h
    by_cases hm : headMatches pat [] = true
    · rw [if_pos hm] at h
      injection h with h
      subst h
      refine ⟨?_, ?_⟩
      · simpa using headMatches_length pat [] hm
      · simpa using hm
    · rw [if_neg hm] at h
      cases h
  | cons c cs ih =>
    intro i h
    unfold strFind at h
    by_cases hm : headMatches pat (c :: cs) = true
    · rw [if_pos hm] at h
      injection h with h
      subst h
      exact ⟨by simpa using headMatches_length pat (c :: cs) hm, by simpa using hm⟩
    · rw [if_neg hm] at h
      cases hfind : strFind pat cs with
      | none => rw [hfind] at h; cases h
      | some j =>
        rw [hfind, Option.map_some'] at h
        injection h with h
        subst h
        obtain ⟨hb, hmj⟩ := ih j hfind
        refine ⟨by simp only [List.length_cons]; omega, ?_⟩
        simpa [List.drop_succ_cons] using hmj

lemma strFindFrom_bound (pat s : List Char) (i j : Nat) (hp : 0 < pat.length)
    (h : strFindFrom pat s i = some j) :
    i ≤ j ∧ j + pat.length ≤ s.length := by
  unfold strFindFrom at h
  rw [Option.map_eq_some'] at h
  obtain ⟨k, hk, rfl⟩ := h
  obtain ⟨hb, -⟩ := strFind_bound pat (s.drop i) k hk
  rw [List.length_drop] at hb
  omega

lemma far_of_none (s b e t : List Char) (h : strFind b s = none) :
    find_and_replace s b e t = (s, false) := by
  simp [find_and_replace, h]

lemma far_of_some_none (s b e t : List Char) (i : Nat)
    (h1 : strFind b s = some i) (h2 : strFindFrom e s i = none) :
    find_and_replace s b e t = (s.take i ++ t, true) := by
  simp [find_and_replace, h1, h2]

lemma far_of_some_some (s b e t : List Char) (i j : Nat)
    (h1 : strFind b s = some i) (h2 : strFindFrom e s i = some j) :
    find_and_replace s b e t = (s.take i ++ t ++ s.drop (j + 1), true) := by
  simp [find_and_replace, h1, h2]

lemma strFind_of_far_false (s b e t : List Char)
    (h : (find_and_replace s b e t).2 = false) : strFind b s = none := by
  cases h1 : strFind b s with
  | none => rfl
  | some i =>
    cases h2 : strFindFrom e s i with
    | none => rw [far_of_some_none s b e t i h1 h2] at h; simp at h
    | some j => rw [far_of_some_some s b e t i j h1 h2] at h; simp at h

lemma far_shrink (s r marker : List Char) (hm : 0 < marker.length)
    (h : find_and_replace s marker ['\n'] [] = (r, true)) :
    r.length < s.length := by
  cases h1 : strFind marker s with
  | none => rw [far_of_none s marker ['\n'] [] h1] at h; simp at h
  | some i =>
    have hb := (strFind_bound marker s i h1).1
    cases h2 : strFindFrom ['\n'] s i with
    | none =>
      rw [far_of_some_none s marker ['\n'] [] i h1 h2] at h
      obtain ⟨hr, -⟩ := Prod.mk.injEq .. ▸ h
      subst hr
      simp [List.length_take]
      omega
    | some j =>
      obtain ⟨hij, hj⟩ := strFindFrom_bound ['\n'] s i j (by simp) h2
      rw [far_of_some_some s marker ['\n'] [] i j h1 h2] at h
      obtain ⟨hr, -⟩ := Prod.mk.injEq .. ▸ h
      subst hr
      simp [List.length_take, List.length_drop]
      omega

lemma strip_go_of_none (marker s : List Char) (fuel : Nat)
    (h : strFind marker s = none) : strip_go marker fuel s = s := by
  cases fuel with
  | zero => rfl
  | succ n => simp [strip_go, far_of_none s marker ['\n'] [] h]

lemma strip_go_find_none (marker : List Char) (hm : 0 < marker.length) :
    ∀ (fuel : Nat) (s : List Char), s.length < fuel →
      strFind marker (strip_go marker fuel s) = none := by
  intro fuel
  induction fuel with
  | zero => intro s h; omega
  | succ n ih =>
    intro s h
    unfold strip_go
    split
    next t heq =>
      exact ih t (by have := far_shrink s t marker hm heq; omega)
    next t heq =>
      exact strFind_of_far_false s marker ['\n'] [] (by rw [heq])

lemma strip_loop_of_none (marker s : List Char) (h : strFind marker s = none) :
    strip_loop marker s = s :=
  strip_go_of_none marker s (s.length + 1) h

lemma strip_loop_find_none (marker s : List Char) (hm : 0 < marker.length) :
    strFind marker (strip_loop marker s) = none :=
  strip_go_find_none marker hm (s.length + 1) s (Nat.lt_succ_self _)

lemma strip_loop_idem (marker s : List Char) (hm : 0 < marker.length) :
    strip_loop marker (strip_loop marker s) = strip_loop marker s :=
  strip_loop_of_none marker _ (strip_loop_find_none marker s hm)

/-- C7 counterexample: the full stripping pass (begin loop, then end loop)
is not idempotent.  On `ex7` the first pass deletes the end-marker line and
thereby splices a begin-marker occurrence into existence; the second pass
deletes it, so the second pass is not a no-op. -/
theorem strip_inline_asm_not_idempotent :
    strip_inline_asm (strip_inline_asm ex7) ≠ strip_inline_asm ex7 := by
  decide

/-- C7 (amended): each single-marker stripping loop is idempotent — running
the begin-marker loop (resp. the end-marker loop) again on its own output
changes nothing — and a rewrite whose marker is absent is a no-op returning
`false`, not an error.  The combined pass (begin loop then end loop) is not
idempotent in general, because deleting an end-marker line can splice the
surrounding text into a new begin-marker occurrence
(`strip_inline_asm_not_idempotent`). -/
theorem strip_marker_loop_idempotent (s u b e target : List Char)
    (hb : strFind b u = none) :
    strip_loop beginMarker (strip_loop beginMarker s) = strip_loop beginMarker s ∧
    strip_loop endMarker (strip_loop endMarker s) = strip_loop endMarker s ∧
    find_and_replace u b e target = (u, false) :=
  ⟨strip_loop_idem beginMarker s (by decide),
   strip_loop_idem endMarker s (by decide),
   far_of_none u b e target hb⟩

/-- Witness for the amended C7 on concrete inputs: re-stripping the (already
stripped) text is a no-op per marker, and a missing begin marker makes the
rewrite a no-op. -/
theorem strip_marker_loop_idempotent_witness :
    strip_loop beginMarker (strip_loop beginMarker ex7) = strip_loop beginMarker ex7 ∧
    strip_loop endMarker (strip_loop endMarker ex7) = strip_loop endMarker ex7 ∧
    find_and_replace (".version 6.4\n".toList) beginMarker ['\n'] [] =
      (".version 6.4\n".toList, false) :=
  strip_marker_loop_idempotent ex7 (".version 6.4\n".toList) beginMarker ['\n'] []
    (by decide)

lemma take_append_big (A B : List Char) (k : Nat) (h : A.length ≤ k) :
    (A ++ B).take k = A ++ B.take (k - A.length) := by
  rw [List.take_append_eq_append_take, List.take_of_length_le h]

lemma headMatches_cons_head (c : Char) (m u : List Char)
    (h : headMatches (c :: m) u = true) : u.head? = some c := by
  cases u with
  | nil => simp [headMatches] at h
  | cons d us =>
    simp only [headMatches, Bool.and_eq_true, beq_iff_eq] at h
    simp [h.1]

lemma strFind_ge_of_head_notin (c : Char) (m P tail : List Char) (hP : c ∉ P)
    (q : Nat) (h : strFind (c :: m) (P ++ tail) = some q) : P.length ≤ q := by
  by_contra hlt
  push_neg at hlt
  obtain ⟨-, hmatch⟩ := strFind_bound (c :: m) (P ++ tail) q h
  have hhead := headMatches_cons_head c m _ hmatch
  rw [List.head?_drop, List.getElem?_append_left hlt] at hhead
  exact hP (List.getElem?_mem hhead)

lemma strip_go_keeps (marker : List Char) (c : Char) (m P : List Char)
    (hmark : marker = c :: m) (hP : c ∉ P) :
    ∀ (fuel : Nat) (tail : List Char), ∃ tail2,
      strip_go marker fuel (P ++ tail) = P ++ tail2 := by
  intro fuel
  induction fuel with
  | zero => intro tail; exact ⟨tail, rfl⟩
  | succ n ih =>
    intro tail
    unfold strip_go
    split
    next t heq =>
      cases h1 : strFind marker (P ++ tail) with
      | none => rw [far_of_none _ _ _ _ h1] at heq; simp at heq
      | some i =>
        have hge : P.length ≤ i :=
          strFind_ge_of_head_notin c m P tail hP i (hmark ▸ h1)
        cases h2 : strFindFrom ['\n'] (P ++ tail) i with
        | none =>
          rw [far_of_some_none _ _ _ _ i h1 h2] at heq
          obtain ⟨ht, -⟩ := Prod.mk.injEq .. ▸ heq
          subst ht
          rw [List.append_nil, take_append_big P tail i hge]
          exact ih (tail.take (i - P.length))
        | some j =>
          rw [far_of_some_some _ _ _ _ i j h1 h2] at heq
          obtain ⟨ht, -⟩ := Prod.mk.injEq .. ▸ heq
          subst ht
          rw [List.append_nil, take_append_big P tail i hge, List.append_assoc]
          exact ih _
    next t heq =>
      exact ⟨tail, rfl⟩

lemma strip_loop_keeps (marker : List Char) (c : Char) (m P tail : List Char)
    (hmark : marker = c :: m) (hP : c ∉ P) :
    ∃ tail2, strip_loop marker (P ++ tail) = P ++ tail2 :=
  strip_go_keeps marker c m P hmark hP ((P ++ tail).length + 1) tail

/-- Marker stripping never rewrites anything inside a tab-free prefix: both
markers start with a tab character, so no marker occurrence can begin
there, and every rewrite deletes text strictly after it. -/
lemma strip_inline_asm_keeps (P tail : List Char) (hP : '\t' ∉ P) :
    ∃ tail2, strip_inline_asm (P ++ tail) = P ++ tail2 := by
  obtain ⟨t1, h1⟩ := strip_loop_keeps beginMarker '\t' ("// begin inline asm".toList)
    P tail (by decide) hP
  obtain ⟨t2, h2⟩ := strip_loop_keeps endMarker '\t' ("// end inline asm".toList)
    P t1 (by decide) hP
  exact ⟨t2, by rw [strip_inline_asm, h1, h2]⟩

lemma digitChar_ge16 (n : Nat) (h : 16 ≤ n) : Nat.digitChar n = '*' := by
  unfold Nat.digitChar
  repeat rw [if_neg (by omega)]

lemma digitChar_ne_tab (n : Nat) : Nat.digitChar n ≠ '\t' := by
  rcases Nat.lt_or_ge n 16 with h | h
  · exact (by decide : ∀ m, m < 16 → Nat.digitChar m ≠ '\t') n h
  · rw [digitChar_ge16 n h]; decide

lemma toDigitsCore_ne_tab (b : Nat) :
    ∀ (fuel n : Nat) (acc : List Char), '\t' ∉ acc →
      '\t' ∉ Nat.toDigitsCore b fuel n acc := by
  intro fuel
  induction fuel with
  | zero => intro n acc hacc; exact hacc
  | succ f ih =>
    intro n acc hacc
    have hd : '\t' ∉ Nat.digitChar (n % b) :: acc := by
      intro hmem
      rcases List.mem_cons.mp hmem with h1 | h1
      · exact digitChar_ne_tab (n % b) h1.symm
      · exact hacc h1
    show '\t' ∉
      (if n / b = 0 then Nat.digitChar (n % b) :: acc
       else Nat.toDigitsCore b f (n / b) (Nat.digitChar (n % b) :: acc))
    by_cases h : n / b = 0
    · rw [if_pos h]; exact hd
    · rw [if_neg h]; exact ih (n / b) _ hd

lemma natRepr_ne_tab (n : Nat) : '\t' ∉ (Nat.repr n).toList := by
  show '\t' ∉ Nat.toDigits 10 n
  exact toDigitsCore_ne_tab 10 (n + 1) n [] (by simp)

lemma intStr_ne_tab (n : Int) : '\t' ∉ intStr n := by
  cases n with
  | ofNat m => exact natRepr_ne_tab m
  | negSucc m =>
    show '\t' ∉ ("-" ++ Nat.repr (m + 1)).toList
    rw [show ("-" ++ Nat.repr (m + 1)).toList = '-' :: (Nat.repr (m + 1)).toList from rfl]
    intro hmem
    rcases List.mem_cons.mp hmem with h1 | h1
    · cases h1
    · exact natRepr_ne_tab (m + 1) h1

lemma versionDirective_ne_tab (ptx : Int) : '\t' ∉ versionDirective ptx := by
  intro h
  rw [versionDirective] at h
  simp only [List.append_assoc, List.mem_append] at h
  rcases h with h | h | h | h | h
  · exact absurd h (by decide)
  · exact intStr_ne_tab (ptx / 10) h
  · exact absurd h (by decide)
  · exact intStr_ne_tab (ptx % 10) h
  · exact absurd h (by decide)

lemma targetDirective_ne_tab (cc : Int) : '\t' ∉ targetDirective cc := by
  intro h
  rw [targetDirective, sm] at h
  simp only [List.append_assoc, List.mem_append] at h
  rcases h with h | h | h | h
  · exact absurd h (by decide)
  · exact absurd h (by decide)
  · exact intStr_ne_tab cc h
  · exact absurd h (by decide)

/-- C2: whenever the text emitted by the generator contains a `.target`
directive (found at some index `k` after the `.version` rewrite) and the
text before it is the usual tab-free preamble, the post-processed assembly
returned by the Code Generator contains `.target sm_<cc>` built from the
*requested* capability `cc` — while internal codegen used the processor
string clamped to the generator ceiling (last conjunct, e.g. `sm_75` for
any `cc > 75`). -/
theorem llir_to_ptx_target_directive (raw : List Char) (cc version ptx : Int)
    (k : Nat)
    (hv : vptx version = Except.ok ptx)
    (hk : strFind (".target".toList) (patchVersion raw ptx) = some k)
    (htab : '\t' ∉ (patchVersion raw ptx).take k) :
    ∃ out, llir_to_ptx raw cc version = Except.ok out ∧
      occursIn (targetDirective cc) out ∧
      (max_nvvm_cc < cc → proc cc = "sm_75".toList) := by
  have hshape : ∃ tail, patchTarget (patchVersion raw ptx) cc =
      ((patchVersion raw ptx).take k ++ targetDirective cc) ++ tail := by
    cases h2 : strFindFrom ['\n'] (patchVersion raw ptx) k with
    | none =>
      refine ⟨[], ?_⟩
      rw [patchTarget, far_of_some_none _ _ _ _ k hk h2]
      simp
    | some j =>
      refine ⟨(patchVersion raw ptx).drop (j + 1), ?_⟩
      rw [patchTarget, far_of_some_some _ _ _ _ k j hk h2]
  obtain ⟨tail, htail⟩ := hshape
  have hPtab : '\t' ∉ (patchVersion raw ptx).take k ++ targetDirective cc := by
    intro h
    rcases List.mem_append.mp h with h | h
    · exact htab h
    · exact targetDirective_ne_tab cc h
  obtain ⟨tail2, hs⟩ := strip_inline_asm_keeps _ tail hPtab
  refine ⟨strip_inline_asm (patchTarget (patchVersion raw ptx) cc), ?_, ?_, ?_⟩
  · rw [llir_to_ptx, hv]; rfl
  · rw [htail, hs]
    exact ⟨(patchVersion raw ptx).take k, tail2, by simp [List.append_assoc]⟩
  · intro hcc
    rw [proc, min_eq_right (le_of_lt hcc)]
    decide

/-- Raw assembly text as the LLVM NVPTX backend emits it (a preamble of
`//` comment lines, then the `.version` and `.target` directive lines),
used to witness the post-processing theorems on a concrete input. -/
def raw0 : List Char :=
  ("//\n// Generated by LLVM NVPTX Back-End\n//\n\n.version 6.4\n.target sm_75\n.address_size 64\n").toList

/-- Witness for C2 at capability 86 (above the generator ceiling 75) and
toolkit 11030: the output carries `.target sm_86` even though internal
codegen used `sm_75`. -/
theorem llir_to_ptx_target_directive_witness :
    ∃ out, llir_to_ptx raw0 86 11030 = Except.ok out ∧
      occursIn (targetDirective 86) out ∧
      (max_nvvm_cc < 86 → proc 86 = "sm_75".toList) :=
  llir_to_ptx_target_directive raw0 86 11030 73 56 (by decide) (by decide)
    (by decide)

/-- C3: whenever the emitted text contains a `.version` directive (at index
`i`, in a tab-free preamble) and the `.target` directive found afterwards
does not start before the rewritten version line ends, the post-processed
assembly contains `.version <major>.<minor>` computed from the *unclamped*
result of the Version Resolver (`versionDirective ptx` is literally
`".version " ++ ptx/10 ++ "." ++ ptx%10 ++ "\n"`), independent of the
generator-internal version clamped to `max_nvvm_ptx`. -/
theorem llir_to_ptx_version_directive (raw : List Char) (cc version ptx : Int)
    (i : Nat)
    (hv : vptx version = Except.ok ptx)
    (hi : strFind (".version".toList) raw = some i)
    (htab : '\t' ∉ raw.take i)
    (hpos : ∀ k, strFind (".target".toList) (patchVersion raw ptx) = some k →
      i + (versionDirective ptx).length ≤ k) :
    ∃ out, llir_to_ptx raw cc version = Except.ok out ∧
      occursIn (versionDirective ptx) out := by
  have hleni : (raw.take i).length = i := by
    obtain ⟨hb, -⟩ := strFind_bound _ raw i hi
    simp only [List.length_take]
    omega
  have hr1 : ∃ X, patchVersion raw ptx =
      (raw.take i ++ versionDirective ptx) ++ X := by
    cases h2 : strFindFrom ['\n'] raw i with
    | none =>
      refine ⟨[], ?_⟩
      rw [patchVersion, far_of_some_none _ _ _ _ i hi h2]
      simp
    | some j =>
      refine ⟨raw.drop (j + 1), ?_⟩
      rw [patchVersion, far_of_some_some _ _ _ _ i j hi h2]
  obtain ⟨X, hX⟩ := hr1
  have hlenP : (raw.take i ++ versionDirective ptx).length =
      i + (versionDirective ptx).length := by
    rw [List.length_append, hleni]
  have hr2 : ∃ Y, patchTarget (patchVersion raw ptx) cc =
      (raw.take i ++ versionDirective ptx) ++ Y := by
    cases hf : strFind (".target".toList) (patchVersion raw ptx) with
    | none =>
      refine ⟨X, ?_⟩
      rw [patchTarget, far_of_none _ _ _ _ hf]
      exact hX
    | some k =>
      have hik : (raw.take i ++ versionDirective ptx).length ≤ k := by
        rw [hlenP]; exact hpos k hf
      cases h2 : strFindFrom ['\n'] (patchVersion raw ptx) k with
      | none =>
        refine ⟨X.take (k - (raw.take i ++ versionDirective ptx).length) ++
          targetDirective cc, ?_⟩
        rw [patchTarget, far_of_some_none _ _ _ _ k hf h2, hX,
          take_append_big _ _ _ hik, List.append_assoc]
      | some j =>
        refine ⟨X.take (k - (raw.take i ++ versionDirective ptx).length) ++
          targetDirective cc ++ (patchVersion raw ptx).drop (j + 1), ?_⟩
        rw [patchTarget, far_of_some_some _ _ _ _ k j hf h2, hX,
          take_append_big _ _ _ hik]
        simp [List.append_assoc]
  obtain ⟨Y, hY⟩ := hr2
  have hPtab : '\t' ∉ raw.take i ++ versionDirective ptx := by
    intro h
    rcases List.mem_append.mp h with h | h
    · exact htab h
    · exact versionDirective_ne_tab ptx h
  obtain ⟨Z, hZ⟩ := strip_inline_asm_keeps _ Y hPtab
  refine ⟨strip_inline_asm (patchTarget (patchVersion raw ptx) cc), ?_, ?_⟩
  · rw [llir_to_ptx, hv]; rfl
  · rw [hY, hZ]
    exact ⟨raw.take i, Z, by simp [List.append_assoc]⟩

/-- Witness for C3 at capability 70 and toolkit 11030: the output contains
`.version 7.3` (the unclamped resolved version 73), as in the spec's
scenario. -/
theorem llir_to_ptx_version_directive_witness :
    (∃ out, llir_to_ptx raw0 70 11030 = Except.ok out ∧
      occursIn (versionDirective 73) out) ∧
    versionDirective 73 = ".version 7.3\n".toList := by
  refine ⟨llir_to_ptx_version_directive raw0 70 11030 73 43 (by decide) (by decide)
    (by decide) ?_, by decide⟩
  intro k hk
  have hk56 : strFind (".target".toList) (patchVersion raw0 73) = some 56 := by
    decide
  rw [hk56] at hk
  injection hk with hk
  subst hk
  decide

/-- C4 evidence (code evaluated at the failing input): when ptxas is on
PATH and the driver load throws, the exception propagates past the
`unlink` calls at llvm.cc:173-174, so both temporary files are still
present when the call returns and no unlink event ever happened — the
every-exit-path cleanup the spec requires does not hold on this path. -/
theorem strategyA_tmpfiles_leak_on_load_failure :
    (ptx_to_cumodule ['p'] 70 leakyEnv).tmpFiles = [TmpFile.src, TmpFile.log] ∧
    Event.unlink TmpFile.src ∉ (ptx_to_cumodule ['p'] 70 leakyEnv).events ∧
    Event.unlink TmpFile.log ∉ (ptx_to_cumodule ['p'] 70 leakyEnv).events := by
  decide

/-- C5: in Strategy A the file-based driver load entry point is reached
unconditionally.  Whatever exit status the assembler returned (the
environment's `asmExit` is arbitrary here: the code stores it in `err` and
never reads it), the event trace starts with probe, temp-file creation,
assembly write, assembler invocation and then the `cuModuleLoad` attempt;
no failure is raised before the load. -/
theorem strategyA_load_called_regardless_of_exit (ptx : List Char) (cc : Int)
    (env : DriverEnv) (h : env.ptxasAvailable = true) :
    ∃ tail, (ptx_to_cumodule ptx cc env).events = strategyAPrefix ptx cc ++ tail := by
  rw [ptx_to_cumodule, if_pos h]
  cases env.loadFile with
  | ok hdl => exact ⟨_, rfl⟩
  | error e =>
    cases e with
    | invalidPtx => exact ⟨_, rfl⟩
    | otherError => exact ⟨[], (List.append_nil _).symm⟩

/-- Witness for C5: the assembler exited with status 1, yet the load event
trace is exactly the unconditional Strategy A prefix followed by a tail. -/
theorem strategyA_load_called_regardless_of_exit_witness :
    ∃ tail, (ptx_to_cumodule ['a'] 75 asmFailEnv).events =
      strategyAPrefix ['a'] 75 ++ tail :=
  strategyA_load_called_regardless_of_exit ['a'] 75 asmFailEnv rfl

/-- C6: whenever the driver (under either strategy) rejects the assembly as
invalid, the call prints the offending assembly text and the diagnostic
message before the failure propagates: the returned outcome is exactly the
`invalid_ptx` error, both print events are in the trace, and no module
handle is returned. -/
theorem invalid_assembly_surfaced (ptx : List Char) (cc : Int) (env : DriverEnv)
    (h : (if env.ptxasAvailable then env.loadFile else env.loadData) =
      Except.error CuError.invalidPtx) :
    (ptx_to_cumodule ptx cc env).ret = Except.error CuError.invalidPtx ∧
    Event.printPtx ptx ∈ (ptx_to_cumodule ptx cc env).events ∧
    Event.printDiag ∈ (ptx_to_cumodule ptx cc env).events ∧
    ∀ hdl : Nat, (ptx_to_cumodule ptx cc env).ret ≠ Except.ok hdl := by
  cases hav : env.ptxasAvailable with
  | true =>
    rw [if_pos hav] at h
    rw [ptx_to_cumodule, if_pos hav, h]
    refine ⟨rfl, ?_, ?_, ?_⟩ <;> simp [strategyAPrefix]
  | false =>
    rw [if_neg (by rw [hav]; exact Bool.false_ne_true)] at h
    rw [ptx_to_cumodule, if_neg (by rw [hav]; exact Bool.false_ne_true), h]
    refine ⟨rfl, ?_, ?_, ?_⟩ <;> simp

/-- Witness for C6 under Strategy B: the in-driver JIT rejects the text and
the call surfaces it. -/
theorem invalid_assembly_surfaced_witness :
    (ptx_to_cumodule ['a'] 80 dataInvalidEnv).ret =
      Except.error CuError.invalidPtx ∧
    Event.printPtx ['a'] ∈ (ptx_to_cumodule ['a'] 80 dataInvalidEnv).events ∧
    Event.printDiag ∈ (ptx_to_cumodule ['a'] 80 dataInvalidEnv).events ∧
    ∀ hdl : Nat, (ptx_to_cumodule ['a'] 80 dataInvalidEnv).ret ≠ Except.ok hdl :=
  invalid_assembly_surfaced ['a'] 80 dataInvalidEnv rfl

/-- C10: after a Strategy A call in which the assembler wrote the compiled
object at the assembly temporary's path with suffix ".o", that object file
is still on the filesystem when the call returns, and no execution of
`ptx_to_cumodule` (any input, any environment) ever unlinks it: only the
assembly source and log temporaries are ever unlinked. -/
theorem strategyA_object_file_persists (ptx : List Char) (cc : Int)
    (env : DriverEnv) (ha : env.ptxasAvailable = true)
    (hw : env.asmWritesObj = true) :
    TmpFile.obj ∈ (ptx_to_cumodule ptx cc env).tmpFiles ∧
    ∀ (ptx2 : List Char) (cc2 : Int) (env2 : DriverEnv),
      Event.unlink TmpFile.obj ∉ (ptx_to_cumodule ptx2 cc2 env2).events := by
  constructor
  · rw [ptx_to_cumodule, if_pos ha]
    cases env.loadFile with
    | ok hdl => simp [hw]
    | error e => cases e <;> simp [hw]
  · intro ptx2 cc2 env2
    cases hb : env2.ptxasAvailable with
    | true =>
      rw [ptx_to_cumodule, if_pos hb]
      cases env2.loadFile with
      | ok hdl => simp [strategyAPrefix]
      | error e => cases e <;> simp [strategyAPrefix]
    | false =>
      rw [ptx_to_cumodule, if_neg (by rw [hb]; exact Bool.false_ne_true)]
      cases env2.loadData with
      | ok hdl => simp
      | error e => cases e <;> simp

/-- Witness for C10: the assembler wrote the object, the load succeeded,
the object file is still present and never unlinked. -/
theorem strategyA_object_file_persists_witness :
    TmpFile.obj ∈ (ptx_to_cumodule ['a'] 75 persistEnv).tmpFiles ∧
    ∀ (ptx2 : List Char) (cc2 : Int) (env2 : DriverEnv),
      Event.unlink TmpFile.obj ∉ (ptx_to_cumodule ptx2 cc2 env2).events :=
  strategyA_object_file_persists ['a'] 75 persistEnv rfl rfl

end Triton
